import Mathlib

/-!
# Verification of the WhatsApp sales-assistant conversation core (`app.py`)

Shallow embedding of the conversation session store, language resolver,
business-context provider, prompt assembler and response orchestrator of
`app.py`, together with proofs of the spec's testable properties.

Modelling conventions:
* Time is a `Nat` of seconds; `datetime.now()` becomes an explicit `now`
  parameter.  A Redis key set with `setex key ttl v` at time `now` is live
  exactly while `now' < now + ttl`.
* The Redis store is an association list from keys to `(Session, expiry)`.
  JSON (de)serialization round-trips every field exactly, so stored values
  are modelled as `Session` records directly.
* Python exceptions become `Except Unit`; external capabilities (the OpenAI
  chat/detection calls) are opaque functions returning `Except Unit String`,
  and possible failure of each Redis call is an injected `Bool` flag.
* Python truthiness of the optional `language` argument (`if language:`)
  is `pyTruthy`: `None` and `""` are falsy.
-/

/-- One user/assistant exchange, as appended by
`ConversationManager.update_context` (app.py lines 58-62). -/
structure Turn where
  timestamp : Nat
  user : String
  assistant : String
deriving DecidableEq, Repr

/-- The per-user context dict produced by `ConversationManager.get_context` /
`update_context`: `{"messages": ..., "language": ..., "business_context": ...}`. -/
structure Session where
  messages : List Turn
  language : String
  business_context : List (String × String)
deriving DecidableEq, Repr

/-- The Redis store: key ↦ (stored session, absolute expiry time). -/
abbrev Store := List (String × Session × Nat)

/-- First entry stored under `key`, with its expiry. -/
def storeFind (st : Store) (key : String) : Option (Session × Nat) :=
  (List.find? (fun e => e.1 = key) st).map (fun e => e.2)

/-- `redis.get key` at time `now`: an entry is visible only while unexpired. -/
def redisGet (st : Store) (now : Nat) (key : String) : Option Session :=
  match storeFind st key with
  | some (s, texp) => if now < texp then some s else none
  | none => none

/-- `redis.setex key ttl v` at time `now`: replaces any entry for `key`,
with absolute expiry `now + ttl`. -/
def redisSetex (st : Store) (key : String) (ttl : Nat) (now : Nat) (v : Session) : Store :=
  (key, v, now + ttl) :: List.filter (fun e => ¬ e.1 = key) st

/-- `LANGUAGE_MAP` (app.py lines 32-42). -/
def LANGUAGE_MAP : List (String × String) :=
  [("en", "English"), ("ar", "Arabic"), ("fr", "French"), ("sw", "Swahili"),
   ("ha", "Hausa"), ("yo", "Yoruba"), ("am", "Amharic"), ("zu", "Zulu"),
   ("pt", "Portuguese")]

/-- `LANGUAGE_MAP.get code` (`None` when the code is not a key). -/
def langLookup (code : String) : Option String :=
  (List.find? (fun p => p.1 = code) LANGUAGE_MAP).map (fun p => p.2)

/-- The keys of `LANGUAGE_MAP`: the supported language codes. -/
def supportedCodes : List String := LANGUAGE_MAP.map (fun p => p.1)

/-- Python truthiness of the optional `language : str = None` argument. -/
def pyTruthy : Option String → Bool
  | none => false
  | some s => s ≠ ""

/-- `self.context_ttl` set in `ConversationManager.__init__` (app.py line 47). -/
def context_ttl : Nat := 3600

/-- The key `f"context:{phone_number}"`. -/
def contextKey (phone_number : String) : String := "context:" ++ phone_number

/-- The default context returned when no stored context is visible
(app.py line 54). -/
def defaultContext : Session :=
  { messages := [], language := "en", business_context := [] }

/-- `ConversationManager.get_context` (app.py lines 49-54): the stored
context if present and unexpired, the default otherwise.  Pure read —
it returns no modified store. -/
def get_context (st : Store) (now : Nat) (phone_number : String) : Session :=
  match redisGet st now (contextKey phone_number) with
  | some context => context
  | none => defaultContext

/-- Python slice `l[-n:]`: the last `min n l.length` elements. -/
def lastN (n : Nat) (l : List α) : List α := l.drop (l.length - n)

/-- `ConversationManager.update_context` (app.py lines 56-66): reload the
context, append the new turn, keep `[-10:]`, set `language` if truthy,
persist with `setex` and the 3600s TTL. -/
def update_context (st : Store) (now : Nat) (phone_number message response : String)
    (language : Option String) : Store :=
  let context := get_context st now phone_number
  let context := { context with
    messages := lastN 10 (context.messages ++ [⟨now, message, response⟩]) }
  let context := if pyTruthy language then
      { context with language := language.getD context.language }
    else context
  redisSetex st (contextKey phone_number) context_ttl now context

/-- A product record of the static business profile (app.py lines 77-78). -/
structure Product where
  id : Nat
  name : String
  price : Nat
  description : String
deriving DecidableEq, Repr

/-- The business profile record set by `load_business_info`. -/
structure BusinessInfo where
  name : String
  products : List Product
  faq : List (String × String)
  working_hours : String
deriving DecidableEq, Repr

/-- `BusinessContext.load_business_info` (app.py lines 73-86): the same
static profile for every `business_id` — the argument is ignored by the
body. -/
def load_business_info (business_id : String) : BusinessInfo :=
  { name := "Demo Store"
  , products :=
      [ { id := 1, name := "Product A", price := 100, description := "High quality product A" }
      , { id := 2, name := "Product B", price := 200, description := "Premium product B" } ]
  , faq :=
      [ ("shipping", "We ship within 24 hours across the country")
      , ("payment", "We accept mobile money, bank transfer, and cash on delivery")
      , ("returns", "30-day return policy on all items") ]
  , working_hours := "Monday-Saturday, 9AM-6PM" }

/-- `json.dumps` of one product dict. -/
def dumpsProduct (p : Product) : String :=
  "\x7b\"id\": " ++ toString p.id ++ ", \"name\": \"" ++ p.name ++
  "\", \"price\": " ++ toString p.price ++ ", \"description\": \"" ++
  p.description ++ "\"\x7d"

/-- `json.dumps` of the product list. -/
def dumpsProducts (ps : List Product) : String :=
  "[" ++ String.intercalate ", " (ps.map dumpsProduct) ++ "]"

/-- `json.dumps` of the FAQ dict. -/
def dumpsFaq (faq : List (String × String)) : String :=
  "\x7b" ++ String.intercalate ", "
    (faq.map (fun kv => "\"" ++ kv.1 ++ "\": \"" ++ kv.2 ++ "\"")) ++ "\x7d"

/-- `BusinessContext.get_system_prompt` (app.py lines 88-94): the f-string
rendered over the loaded profile and `LANGUAGE_MAP.get(language, 'English')`. -/
def get_system_prompt (business_id : String) (language : String) : String :=
  let info := load_business_info business_id
  "You are a helpful sales assistant for " ++ info.name ++ ". \n" ++
  "Respond in " ++ (langLookup language).getD "English" ++ ".\n" ++
  "Products: " ++ dumpsProducts info.products ++ "\n" ++
  "FAQ: " ++ dumpsFaq info.faq ++ "\n" ++
  "Working Hours: " ++ info.working_hours ++ "\n" ++
  "Be friendly, concise, and helpful. Keep it short for WhatsApp."

/-- Python whitespace for `str.strip()` (ASCII range). -/
def pyIsSpace (c : Char) : Bool :=
  c = ' ' || c = '\t' || c = '\n' || c = '\r' || c = '\x0b' || c = '\x0c'

/-- Python `str.lower()` on one character (ASCII range). -/
def pyLowerChar (c : Char) : Char :=
  if 'A' ≤ c ∧ c ≤ 'Z' then Char.ofNat (c.toNat + 32) else c

/-- Python `s.strip().lower()` (ASCII model of the Unicode behaviour). -/
def pyStripLower (s : String) : String :=
  String.mk
    ((((s.data.dropWhile pyIsSpace).reverse.dropWhile pyIsSpace).reverse).map pyLowerChar)

/-- `detect_language` (app.py lines 99-114).  `detect` is the external
OpenAI detection call on `text`: it returns the raw content string of the
model reply, or fails.  The code strips and lowercases the result and
accepts it only when it is a `LANGUAGE_MAP` key; any other value, and any
failure of the call, yields `'en'`. -/
def detect_language (detect : String → Except Unit String) (text : String) : String :=
  match detect text with
  | Except.ok content =>
      let lang_code := pyStripLower content
      if (langLookup lang_code).isSome then lang_code else "en"
  | Except.error _ => "en"

/-- The language-resolution step of `generate_response` (app.py lines
119-120): when the stored language is falsy or the history is empty, run
detection; otherwise keep the stored language.  The boolean records
whether the detection branch was taken (the detection capability is
consulted only on that branch). -/
def resolve_language (detect : String → Except Unit String) (context : Session)
    (message : String) : String × Bool :=
  if context.language = "" ∨ context.messages.length = 0 then
    (detect_language detect message, true)
  else
    (context.language, false)

/-- A role/content message of the assembled prompt. -/
structure Msg where
  role : String
  content : String
deriving DecidableEq, Repr

/-- Prompt assembly of `generate_response` (app.py lines 124-128): start
from the system message, loop over `context["messages"][-5:]` appending a
user and an assistant message per turn, then append the new user message. -/
def build_messages (system_prompt : String) (history : List Turn)
    (message : String) : List Msg :=
  let messages : List Msg := [⟨"system", system_prompt⟩]
  let messages := (lastN 5 history).foldl
    (fun acc msg => acc ++ [⟨"user", msg.user⟩, ⟨"assistant", msg.assistant⟩])
    messages
  messages ++ [⟨"user", message⟩]

/-- Behaviour of the external capabilities during one request.  `detect`
and `chat` are the two OpenAI calls (argument: detection input text,
resp. assembled message list); the three `Bool`s tell whether each Redis
call succeeds: the `get` in `get_context` (line 118), the `get` inside
`update_context` (line 57), and the `setex` (line 66). -/
structure Caps where
  detect : String → Except Unit String
  chat : List Msg → Except Unit String
  getOk : Bool
  putGetOk : Bool
  setexOk : Bool

/-- `get_context` with its Redis read possibly failing. -/
def get_context_exc (ok : Bool) (st : Store) (now : Nat) (phone_number : String) :
    Except Unit Session :=
  if ok then Except.ok (get_context st now phone_number) else Except.error ()

/-- `update_context` with its inner Redis read and its `setex` possibly
failing.  The list/dict operations between them cannot fail; if the read
fails nothing is written, and if `setex` fails the store is unchanged, so
both failures leave the store as it was and raise. -/
def update_context_exc (gOk sOk : Bool) (st : Store) (now : Nat)
    (phone_number message response : String) (language : Option String) :
    Except Unit Store :=
  if gOk then
    if sOk then Except.ok (update_context st now phone_number message response language)
    else Except.error ()
  else Except.error ()

/-- The `try` block of `generate_response` (app.py lines 117-139): read the
context, resolve the language, assemble the prompt, invoke the model, and
persist the turn; any raised failure propagates out of the block. -/
def generate_response_body (caps : Caps) (st : Store) (now : Nat)
    (message phone_number business_id : String) : Except Unit (String × Store) :=
  match get_context_exc caps.getOk st now phone_number with
  | Except.error e => Except.error e
  | Except.ok context =>
    let language := (resolve_language caps.detect context message).1
    let messages := build_messages (get_system_prompt business_id language)
      context.messages message
    match caps.chat messages with
    | Except.error e => Except.error e
    | Except.ok ai_response =>
      match update_context_exc caps.putGetOk caps.setexOk st now phone_number
        message ai_response (some language) with
      | Except.error e => Except.error e
      | Except.ok st' => Except.ok (ai_response, st')

/-- The fixed apology returned on the degrade path (app.py line 142). -/
def apology : String := "Sorry, I'm having trouble responding. Please try again later."

/-- `generate_response` (app.py lines 116-142): the `try` block with the
top-level `except` that converts any raised failure into the fixed
apology, leaving the store untouched.  Returns the reply text and the
store after the request. -/
def generate_response (caps : Caps) (st : Store) (now : Nat)
    (message phone_number business_id : String) : String × Store :=
  match generate_response_body caps st now message phone_number business_id with
  | Except.ok r => r
  | Except.error _ => (apology, st)

/-- Arguments of one `update_context` call: the call time and the
`message`/`response`/`language` arguments. -/
structure PutCall where
  now : Nat
  msg : String
  resp : String
  lang : Option String
deriving DecidableEq, Repr

/-- The turn a call appends (app.py lines 58-62). -/
def toTurn (c : PutCall) : Turn := ⟨c.now, c.msg, c.resp⟩

/-- Run a sequence of `update_context` calls for one phone number, oldest
first. -/
def runPuts (phone_number : String) (st : Store) : List PutCall → Store
  | [] => st
  | c :: cs => runPuts phone_number
      (update_context st c.now phone_number c.msg c.resp c.lang) cs

/-- Consecutive calls leave less than one TTL between them, so the session
never expires during the sequence. -/
def noExpiryBetween (cs : List PutCall) : Prop :=
  List.Chain' (fun a b => b.now < a.now + context_ttl) cs

/-- Every session stored anywhere in the store carries a supported
language code. -/
def StoreOK (st : Store) : Prop :=
  ∀ e ∈ st, (e : String × Session × Nat).2.1.language ∈ supportedCodes

/-! ## Helper lemmas -/

theorem lastN_eq_rtake {α : Type} (n : Nat) (l : List α) : lastN n l = l.rtake n := rfl

theorem length_lastN {α : Type} (n : Nat) (l : List α) :
    (lastN n l).length = min n l.length := by
  simp only [lastN, List.length_drop]
  omega

theorem lastN_suffix {α : Type} (n : Nat) (l : List α) : lastN n l <:+ l :=
  List.drop_suffix _ _

theorem lastN_of_length_le {α : Type} {n : Nat} {l : List α} (h : l.length ≤ n) :
    lastN n l = l := by
  simp [lastN, Nat.sub_eq_zero_of_le h]

theorem take_append_take {α : Type} (n : Nat) (as bs : List α) :
    (as ++ bs.take n).take n = (as ++ bs).take n := by
  rw [List.take_append_eq_append_take, List.take_append_eq_append_take,
    List.take_take]
  exact congrArg (fun k => List.take n as ++ List.take k bs)
    (inf_eq_left.mpr (Nat.sub_le n as.length))

theorem lastN_append_lastN {α : Type} (n : Nat) (xs ys : List α) :
    lastN n (lastN n xs ++ ys) = lastN n (xs ++ ys) := by
  simp only [lastN_eq_rtake, List.rtake_eq_reverse_take_reverse,
    List.reverse_append, List.reverse_reverse]
  rw [take_append_take]

theorem storeFind_setex (st : Store) (key : String) (ttl now : Nat) (v : Session) :
    storeFind (redisSetex st key ttl now v) key = some (v, now + ttl) := by
  simp [storeFind, redisSetex, List.find?_cons_of_pos]

theorem get_context_of_find {st : Store} {p : String} {s : Session} {e : Nat}
    (hf : storeFind st (contextKey p) = some (s, e)) {now : Nat} (hn : now < e) :
    get_context st now p = s := by
  simp [get_context, redisGet, hf, hn]

theorem get_context_of_none {st : Store} {p : String} {now : Nat}
    (h : redisGet st now (contextKey p) = none) :
    get_context st now p = defaultContext := by
  simp [get_context, h]

theorem storeFind_update_context (st : Store) (now : Nat) (p m r : String)
    (lg : Option String) :
    ∃ s' : Session,
      storeFind (update_context st now p m r lg) (contextKey p) = some (s', now + context_ttl) ∧
      s'.messages = lastN 10 ((get_context st now p).messages ++ [⟨now, m, r⟩]) ∧
      s'.language = (if pyTruthy lg then lg.getD (get_context st now p).language
        else (get_context st now p).language) ∧
      s'.business_context = (get_context st now p).business_context := by
  unfold update_context
  cases h : pyTruthy lg <;>
    simp [h, storeFind_setex]

theorem runPuts_inv (phone : String) (cs : List PutCall) :
    ∀ (st : Store) (s : Session) (t : Nat),
      storeFind st (contextKey phone) = some (s, t) →
      s.messages.length ≤ 10 →
      (∀ c, cs.head? = some c → c.now < t) →
      noExpiryBetween cs →
      ∃ s' t', storeFind (runPuts phone st cs) (contextKey phone) = some (s', t') ∧
        s'.messages = lastN 10 (s.messages ++ cs.map toTurn) := by
  induction cs with
  | nil =>
    intro st s t hf hlen _ _
    exact ⟨s, t, hf, by simp [lastN_of_length_le hlen]⟩
  | cons c cs ih =>
    intro st s t hf hlen hhead hchain
    have hvis : get_context st c.now phone = s :=
      get_context_of_find hf (hhead c rfl)
    obtain ⟨s₁, hf₁, hmsg₁, -, -⟩ := storeFind_update_context st c.now phone c.msg c.resp c.lang
    rw [hvis] at hmsg₁
    have hlen₁ : s₁.messages.length ≤ 10 := by
      rw [hmsg₁, length_lastN]; omega
    have hhead₁ : ∀ c', cs.head? = some c' → c'.now < c.now + context_ttl := by
      intro c' hc'
      cases cs with
      | nil => simp at hc'
      | cons d ds =>
        simp at hc'
        subst hc'
        exact (List.chain'_cons.mp hchain).1
    obtain ⟨s', t', hf', hmsg'⟩ :=
      ih (update_context st c.now phone c.msg c.resp c.lang) s₁ (c.now + context_ttl)
        hf₁ hlen₁ hhead₁ (List.Chain'.tail hchain)
    refine ⟨s', t', hf', ?_⟩
    rw [hmsg', hmsg₁, lastN_append_lastN, List.append_assoc]
    simp [toTurn]

theorem foldl_append_flatMap {α β : Type} (g : α → List β) (l : List α) :
    ∀ init : List β, l.foldl (fun acc x => acc ++ g x) init = init ++ l.flatMap g := by
  induction l with
  | nil => intro init; simp
  | cons x xs ih => intro init; simp [ih]

theorem length_flatMap_turnPair (l : List Turn) :
    (l.flatMap (fun t =>
      [(⟨"user", t.user⟩ : Msg), ⟨"assistant", t.assistant⟩])).length = 2 * l.length := by
  induction l with
  | nil => simp
  | cons x xs ih => simp [ih]; omega

/-! ## Claims -/

/-- **C1** Bounded history invariant: along any sequence of successful
`update_context` calls on one session (no expiry between consecutive
calls), the stored history after the calls is exactly the last
`min 10 N` appended turns, oldest first — so it has length at most 10,
eviction drops oldest first, and every retained turn is exactly the
originally appended (never mutated) turn, the retained block being a
suffix of the full append sequence.  Quantifying over all call sequences
covers the state after each call of any longer sequence. -/
theorem bounded_history_invariant (phone : String) (c : PutCall) (cs : List PutCall)
    (hchain : noExpiryBetween (c :: cs)) :
    ∃ s t', storeFind (runPuts phone [] (c :: cs)) (contextKey phone) = some (s, t') ∧
      s.messages = lastN 10 ((c :: cs).map toTurn) ∧
      s.messages.length ≤ 10 ∧
      s.messages <:+ (c :: cs).map toTurn := by
  have h0 : get_context [] c.now phone = defaultContext := by
    simp [get_context, redisGet, storeFind]
  obtain ⟨s₁, hf₁, hmsg₁, -, -⟩ :=
    storeFind_update_context [] c.now phone c.msg c.resp c.lang
  rw [h0] at hmsg₁
  have hm₁ : s₁.messages = [toTurn c] := by
    rw [hmsg₁]; simp [defaultContext, toTurn, lastN]
  have hlen₁ : s₁.messages.length ≤ 10 := by rw [hm₁]; simp
  have hhead₁ : ∀ c', cs.head? = some c' → c'.now < c.now + context_ttl := by
    intro c' hc'
    cases cs with
    | nil => simp at hc'
    | cons d ds =>
      simp at hc'
      subst hc'
      exact (List.chain'_cons.mp hchain).1
  obtain ⟨s', t', hf', hmsg'⟩ :=
    runPuts_inv phone cs (update_context [] c.now phone c.msg c.resp c.lang)
      s₁ (c.now + context_ttl) hf₁ hlen₁ hhead₁ (List.Chain'.tail hchain)
  have hmsgs : s'.messages = lastN 10 ((c :: cs).map toTurn) := by
    rw [hmsg', hm₁]; simp
  refine ⟨s', t', by simpa [runPuts] using hf', hmsgs, ?_, ?_⟩
  · rw [hmsgs, length_lastN]; omega
  · rw [hmsgs]; exact lastN_suffix _ _

theorem bounded_history_invariant_witness :
    noExpiryBetween
      [({ now := 0, msg := "hi", resp := "hello", lang := none } : PutCall),
       { now := 1, msg := "price?", resp := "100", lang := some "en" }] ∧
    ∃ s t', storeFind
        (runPuts "u" []
          [({ now := 0, msg := "hi", resp := "hello", lang := none } : PutCall),
           { now := 1, msg := "price?", resp := "100", lang := some "en" }])
        (contextKey "u") = some (s, t') ∧
      s.messages = lastN 10
        ([({ now := 0, msg := "hi", resp := "hello", lang := none } : PutCall),
          { now := 1, msg := "price?", resp := "100", lang := some "en" }].map toTurn) ∧
      s.messages.length ≤ 10 ∧
      s.messages <:+
        [({ now := 0, msg := "hi", resp := "hello", lang := none } : PutCall),
         { now := 1, msg := "price?", resp := "100", lang := some "en" }].map toTurn :=
  have hch : noExpiryBetween
      [({ now := 0, msg := "hi", resp := "hello", lang := none } : PutCall),
       { now := 1, msg := "price?", resp := "100", lang := some "en" }] :=
    List.chain'_pair.mpr (by decide)
  ⟨hch, bounded_history_invariant "u" _ _ hch⟩

/-- **C6** Prompt assembly shape and context-window bound: the assembled
message list is exactly the system message, then the most recent
`min 5 (length history)` turns flattened as user/assistant pairs oldest
first (a suffix of the stored history), then the new user message; its
length is `2 * min 5 (length history) + 2 ≤ 12`, so never more than 5
prior turns are included even when the store holds 10. -/
theorem prompt_assembly_shape (system_prompt : String) (history : List Turn)
    (message : String) :
    build_messages system_prompt history message =
      ⟨"system", system_prompt⟩ ::
        ((lastN 5 history).flatMap
          (fun t => [⟨"user", t.user⟩, ⟨"assistant", t.assistant⟩]) ++
         [⟨"user", message⟩]) ∧
    (lastN 5 history).length = min 5 history.length ∧
    lastN 5 history <:+ history ∧
    (build_messages system_prompt history message).length =
      2 * min 5 history.length + 2 ∧
    (build_messages system_prompt history message).length ≤ 12 := by
  have hb : build_messages system_prompt history message =
      ⟨"system", system_prompt⟩ ::
        ((lastN 5 history).flatMap
          (fun t => [⟨"user", t.user⟩, ⟨"assistant", t.assistant⟩]) ++
         [⟨"user", message⟩]) := by
    simp only [build_messages]
    rw [foldl_append_flatMap]
    simp
  have hlen : (build_messages system_prompt history message).length =
       2 * min 5 history.length + 2 := by
    rw [hb]
    simp only [List.length_cons, List.length_append, length_flatMap_turnPair,
      length_lastN, List.length_singleton, List.length_nil]
  exact ⟨hb, length_lastN 5 history, lastN_suffix 5 history, hlen, by omega⟩

/-- **C7** TTL refresh and conditional language write: every successful
`update_context` persists the session under the context key with expiry
exactly `now + 3600`; the persisted language is the supplied value when
it is truthy (non-`None`, non-empty) and the previously visible stored
language otherwise; and a `get` at any instant before the new expiry
still sees the persisted session. -/
theorem ttl_refresh_and_language_write (st : Store) (now : Nat) (p m r : String)
    (lg : Option String) :
    ∃ s' : Session,
      storeFind (update_context st now p m r lg) (contextKey p) = some (s', now + 3600) ∧
      s'.language = (if pyTruthy lg then lg.getD (get_context st now p).language
        else (get_context st now p).language) ∧
      s'.messages = lastN 10 ((get_context st now p).messages ++ [⟨now, m, r⟩]) ∧
      (∀ now', now' < now + 3600 →
        redisGet (update_context st now p m r lg) now' (contextKey p) = some s') := by
  obtain ⟨s', hf, hm, hl, -⟩ := storeFind_update_context st now p m r lg
  have hf' : storeFind (update_context st now p m r lg) (contextKey p) =
      some (s', now + 3600) := hf
  refine ⟨s', hf', hl, hm, ?_⟩
  intro now' hn'
  simp [redisGet, hf', hn']

theorem ttl_refresh_and_language_write_witness :
    ∃ s' : Session,
      storeFind (update_context [] 5 "u" "hi" "yo" (some "fr")) (contextKey "u") =
        some (s', 3605) ∧
      redisGet (update_context [] 5 "u" "hi" "yo" (some "fr")) 100 (contextKey "u") =
        some s' := by
  obtain ⟨s', hf, -, -, hget⟩ := ttl_refresh_and_language_write [] 5 "u" "hi" "yo" (some "fr")
  exact ⟨s', by simpa using hf, hget 100 (by omega)⟩

theorem langLookup_isSome_iff (c : String) :
    (langLookup c).isSome ↔ c ∈ supportedCodes := by
  unfold langLookup supportedCodes
  rw [Option.isSome_map', List.find?_isSome]
  simp [List.mem_map, eq_comm]

theorem detect_language_mem (cap : String → Except Unit String) (t : String) :
    detect_language cap t ∈ supportedCodes := by
  rcases hc : cap t with e | c
  · have h : detect_language cap t = "en" := by simp [detect_language, hc]
    rw [h]; decide
  · by_cases h : (langLookup (pyStripLower c)).isSome
    · have h2 : detect_language cap t = pyStripLower c := by
        simp [detect_language, hc, h]
      rw [h2]; exact (langLookup_isSome_iff _).mp h
    · have h2 : detect_language cap t = "en" := by simp [detect_language, hc, h]
      rw [h2]; decide

/-- **C3 counterexample** The claim says the fresh default session's
language is unset; in the code the sticky check `not context.get("language")`
is the notion of "unset" (the falsy string `""`), and the fresh default
returned by `get_context` for a user with no stored (or an expired)
session carries language `"en"` — a set, supported code — not an unset
value. -/
theorem fresh_session_language_cex :
    redisGet ([] : Store) 0 (contextKey "user1") = none ∧
    (get_context [] 0 "user1").language = "en" ∧
    (get_context [] 0 "user1").language ≠ "" := by
  decide

/-- **C3 (amended)** Fresh-session default: whenever no stored session is
visible for the user (none was ever stored, or the stored one expired —
the two cases are the same hypothesis `redisGet … = none`, so they are
indistinguishable to the caller), `get_context` returns the fixed default
session with empty history and language `"en"`; `get_context` is a pure
read, so the default is not written back. -/
theorem fresh_session_default (st : Store) (now : Nat) (u : String)
    (h : redisGet st now (contextKey u) = none) :
    get_context st now u = defaultContext ∧
    (get_context st now u).messages = [] ∧
    (get_context st now u).language = "en" := by
  simp [get_context, h, defaultContext]

theorem fresh_session_default_witness :
    redisGet ([] : Store) 7 (contextKey "u") = none ∧
    get_context [] 7 "u" = defaultContext :=
  ⟨by decide, (fresh_session_default [] 7 "u" (by decide)).1⟩

/-- **C4** Sticky language: when the session's language is set (non-falsy)
and its history is non-empty, the resolution step returns the stored
language unchanged with the detection branch not taken, for every
possible behaviour of the detection capability (so the capability is
never consulted); and in the complementary case (language unset or empty
history) the detection branch is taken. -/
theorem sticky_language (cap : String → Except Unit String) (context : Session)
    (message : String) (hl : context.language ≠ "") (hh : context.messages ≠ []) :
    (∀ cap' : String → Except Unit String,
      resolve_language cap' context message = (context.language, false)) ∧
    (∀ context' : Session, (context'.language = "" ∨ context'.messages = []) →
      resolve_language cap context' message = (detect_language cap message, true)) := by
  constructor
  · intro cap'
    have hcond : ¬ (context.language = "" ∨ context.messages.length = 0) := by
      rw [not_or]
      exact ⟨hl, by simpa [List.length_eq_zero] using hh⟩
    simp only [resolve_language, if_neg hcond]
  · intro context' h'
    have hcond : context'.language = "" ∨ context'.messages.length = 0 := by
      rcases h' with h' | h'
      · exact Or.inl h'
      · exact Or.inr (by simp [h'])
    simp only [resolve_language, if_pos hcond]

theorem sticky_language_witness :
    ((⟨[⟨0, "hola", "hi"⟩], "fr", []⟩ : Session).language ≠ "") ∧
    ((⟨[⟨0, "hola", "hi"⟩], "fr", []⟩ : Session).messages ≠ []) ∧
    resolve_language (fun _ => Except.ok "ar") ⟨[⟨0, "hola", "hi"⟩], "fr", []⟩ "text" =
      ("fr", false) :=
  ⟨by decide, by decide,
    (sticky_language (fun _ => Except.ok "ar") ⟨[⟨0, "hola", "hi"⟩], "fr", []⟩ "text"
      (by decide) (by decide)).1 (fun _ => Except.ok "ar")⟩

/-- **C5 counterexample** The claim says any detection result outside the
supported set maps to `"en"`; but the code strips and lowercases the raw
result before the membership test, so the raw result `"FR"` — which is
outside the supported set — yields `"fr"`, not `"en"`. -/
theorem fallback_normalization_cex :
    (fun _ : String => (Except.ok "FR" : Except Unit String)) "bonjour" =
      Except.ok "FR" ∧
    "FR" ∉ supportedCodes ∧
    detect_language (fun _ => Except.ok "FR") "bonjour" = "fr" ∧
    "fr" ≠ "en" :=
  ⟨rfl, by decide, by decide, by decide⟩

/-- **C5 (amended)** Fallback normalization: if the detection call fails,
or its result after the code's strip-and-lowercase normalization is
outside the supported set, `detect_language` returns `"en"`; in every
case it returns a member of the supported set (failure is caught locally
and never propagates — the function is total). -/
theorem fallback_normalization (cap : String → Except Unit String) (text : String) :
    (cap text = Except.error () → detect_language cap text = "en") ∧
    (∀ content, cap text = Except.ok content →
      pyStripLower content ∉ supportedCodes → detect_language cap text = "en") ∧
    detect_language cap text ∈ supportedCodes := by
  refine ⟨?_, ?_, detect_language_mem cap text⟩
  · intro h
    simp [detect_language, h]
  · intro content h hns
    have hsome : ¬ (langLookup (pyStripLower content)).isSome = true := by
      rw [langLookup_isSome_iff]
      exact hns
    simp [detect_language, h, hsome]

theorem fallback_normalization_witness :
    detect_language (fun _ => Except.error ()) "hola" = "en" ∧
    detect_language (fun _ => Except.ok "xx") "hola" = "en" :=
  ⟨(fallback_normalization (fun _ => Except.error ()) "hola").1 rfl,
   (fallback_normalization (fun _ => Except.ok "xx") "hola").2.1 "xx" rfl (by decide)⟩

/-- **C10** Business-identifier noninterference: for every pair of business
identifiers and every language code, the loaded profile and the rendered
system prompt are identical — `get_system_prompt` is a deterministic
function of the language code alone. -/
theorem business_id_noninterference (b1 b2 language : String) :
    get_system_prompt b1 language = get_system_prompt b2 language ∧
    load_business_info b1 = load_business_info b2 :=
  ⟨rfl, rfl⟩

/-- **C2** Degrade on model failure is atomic: whatever the store, the
session state and the other capabilities, if the model call raises then
`generate_response` returns the fixed apology string and the store —
hence the stored session, its history and its TTL — is exactly what it
was before the call: no turn is persisted and no expiry is reset. -/
theorem degrade_on_model_failure (caps : Caps) (st : Store) (now : Nat)
    (message phone_number business_id : String)
    (h : ∀ msgs, caps.chat msgs = Except.error ()) :
    generate_response caps st now message phone_number business_id = (apology, st) := by
  unfold generate_response generate_response_body
  cases hg : caps.getOk
  · simp [get_context_exc]
  · simp [get_context_exc, h]

theorem degrade_on_model_failure_witness :
    generate_response ⟨fun _ => Except.ok "es", fun _ => Except.error (), true, true, true⟩
      [] 0 "Hola" "u" "demo" = (apology, []) :=
  degrade_on_model_failure ⟨fun _ => Except.ok "es", fun _ => Except.error (), true, true, true⟩
    [] 0 "Hola" "u" "demo" (fun _ => rfl)

theorem generate_response_body_ok_inv (caps : Caps) (st : Store) (now : Nat)
    (m p b : String) (r : String × Store)
    (h : generate_response_body caps st now m p b = Except.ok r) :
    caps.getOk = true ∧ caps.putGetOk = true ∧ caps.setexOk = true ∧
    caps.chat (build_messages
        (get_system_prompt b (resolve_language caps.detect (get_context st now p) m).1)
        (get_context st now p).messages m) = Except.ok r.1 ∧
    r.2 = update_context st now p m r.1
        (some (resolve_language caps.detect (get_context st now p) m).1) := by
  cases hg : caps.getOk
  · simp [generate_response_body, get_context_exc, hg] at h
  · simp only [generate_response_body, get_context_exc, hg, if_true] at h
    rcases hchat : caps.chat (build_messages
        (get_system_prompt b (resolve_language caps.detect (get_context st now p) m).1)
        (get_context st now p).messages m) with e | ai
    · rw [hchat] at h
      simp at h
    · rw [hchat] at h
      cases hpg : caps.putGetOk
      · simp [update_context_exc, hpg] at h
      · cases hsx : caps.setexOk
        · simp [update_context_exc, hpg, hsx] at h
        · simp only [update_context_exc, hpg, hsx, if_true] at h
          have hr : r = (ai, update_context st now p m ai
              (some (resolve_language caps.detect (get_context st now p) m).1)) := by
            cases h
            rfl
          subst hr
          exact ⟨rfl, rfl, rfl, rfl, rfl⟩

/-- **C8 counterexample** The claim says any external-capability failure is
converted to the fixed apology reply; but a detection failure alone is
absorbed into the default language: with the detection call failing and
everything else healthy, `generate_response` returns the model reply, not
the apology. -/
theorem capability_failure_apology_cex :
    (Caps.detect ⟨fun _ => Except.error (), fun _ => Except.ok "Hello!", true, true, true⟩) "Hola"
      = Except.error () ∧
    (generate_response ⟨fun _ => Except.error (), fun _ => Except.ok "Hello!", true, true, true⟩
      [] 0 "Hola" "u" "demo").1 = "Hello!" ∧
    "Hello!" ≠ apology :=
  ⟨rfl, by decide, by decide⟩

/-- **C8 (amended)** Core totality: for every input and every behaviour of
the external capabilities, `generate_response` returns a string that is
either the fixed apology or a reply produced by the model capability (no
exception propagates out); whenever the request body raises — in
particular whenever any storage call fails — the failure is caught and
converted to the apology with the store unchanged.  A detection failure
alone is absorbed into the default language, not converted to the
apology. -/
theorem core_never_raises (caps : Caps) (st : Store) (now : Nat)
    (message phone_number business_id : String) :
    ((generate_response caps st now message phone_number business_id).1 = apology ∨
      ∃ msgs, caps.chat msgs =
        Except.ok (generate_response caps st now message phone_number business_id).1) ∧
    (generate_response_body caps st now message phone_number business_id = Except.error () →
      generate_response caps st now message phone_number business_id = (apology, st)) ∧
    ((caps.getOk = false ∨ caps.putGetOk = false ∨ caps.setexOk = false) →
      generate_response caps st now message phone_number business_id = (apology, st)) := by
  rcases hb : generate_response_body caps st now message phone_number business_id with e | r
  · refine ⟨Or.inl ?_, fun _ => ?_, fun _ => ?_⟩ <;> simp [generate_response, hb]
  · obtain ⟨hg, hpg, hsx, hchat, -⟩ := generate_response_body_ok_inv _ _ _ _ _ _ _ hb
    have hr : generate_response caps st now message phone_number business_id = r := by
      simp [generate_response, hb]
    refine ⟨Or.inr ⟨_, by rw [hr]; exact hchat⟩, ?_, ?_⟩
    · intro hh
      simp at hh
    · intro hh
      rcases hh with hh | hh | hh
      · rw [hg] at hh; simp at hh
      · rw [hpg] at hh; simp at hh
      · rw [hsx] at hh; simp at hh

theorem core_never_raises_witness :
    generate_response ⟨fun _ => Except.ok "fr", fun _ => Except.ok "Hi", false, true, true⟩
      [] 0 "hey" "u" "demo" = (apology, []) :=
  (core_never_raises ⟨fun _ => Except.ok "fr", fun _ => Except.ok "Hi", false, true, true⟩
    [] 0 "hey" "u" "demo").2.2 (Or.inl rfl)

theorem get_context_language_mem {st : Store} (hok : StoreOK st) (now : Nat) (p : String) :
    (get_context st now p).language ∈ supportedCodes := by
  rcases hf : storeFind st (contextKey p) with - | ⟨s, texp⟩
  · simp [get_context, redisGet, hf, defaultContext]
    decide
  · by_cases hn : now < texp
    · have hs : get_context st now p = s := get_context_of_find hf hn
      rw [hs]
      obtain ⟨e, he, h2⟩ := Option.map_eq_some'.mp hf
      have hl := hok e (List.mem_of_find?_eq_some he)
      rw [h2] at hl
      exact hl
    · simp [get_context, redisGet, hf, hn, defaultContext]
      decide

theorem StoreOK_update_context (st : Store) (now : Nat) (p m r : String)
    (lg : Option String) (hok : StoreOK st)
    (hl : ∀ l, lg = some l → l ≠ "" → l ∈ supportedCodes) :
    StoreOK (update_context st now p m r lg) := by
  intro e he
  simp only [update_context, redisSetex] at he
  rcases List.mem_cons.mp he with he | he
  · subst he
    rcases lg with - | l
    · simp [pyTruthy]
      exact get_context_language_mem hok now p
    · by_cases hne : l = ""
      · subst hne
        simp [pyTruthy]
        exact get_context_language_mem hok now p
      · simp [pyTruthy, hne]
        exact hl l rfl hne
  · exact hok e (List.mem_of_mem_filter he)

theorem resolve_language_mem {st : Store} (hok : StoreOK st)
    (cap : String → Except Unit String) (now : Nat) (p m : String) :
    (resolve_language cap (get_context st now p) m).1 ∈ supportedCodes := by
  unfold resolve_language
  split
  · simpa using detect_language_mem cap m
  · simpa using get_context_language_mem hok now p

/-- **C9** Implicit supported-language invariant: the supported set is
exactly the nine codes of `LANGUAGE_MAP`, and whenever every session in
the store carries a supported language, so does every session in the
store after a `generate_response` request — in particular every session
such a request persists (the default is `"en"`, detection output is
filtered to the supported set, and the resolved value is passed to the
persisting write).  All stores reachable from the empty store through
requests therefore satisfy the invariant. -/
theorem persisted_language_supported (caps : Caps) (st : Store) (now : Nat)
    (m p b : String) (hok : StoreOK st) :
    StoreOK (generate_response caps st now m p b).2 ∧
    supportedCodes = ["en", "ar", "fr", "sw", "ha", "yo", "am", "zu", "pt"] := by
  refine ⟨?_, by decide⟩
  rcases hb : generate_response_body caps st now m p b with e | r
  · simpa [generate_response, hb] using hok
  · obtain ⟨-, -, -, -, h2⟩ := generate_response_body_ok_inv _ _ _ _ _ _ _ hb
    have hr : (generate_response caps st now m p b).2 = r.2 := by
      simp [generate_response, hb]
    rw [hr, h2]
    apply StoreOK_update_context st now p m r.1 _ hok
    intro l heq hne
    have hleq : l = (resolve_language caps.detect (get_context st now p) m).1 := by
      cases heq
      rfl
    rw [hleq]
    exact resolve_language_mem hok caps.detect now p m

theorem persisted_language_supported_witness :
    StoreOK (generate_response
      ⟨fun _ => Except.ok "fr", fun _ => Except.ok "Bonjour!", true, true, true⟩
      [] 0 "salut" "u" "demo").2 :=
  (persisted_language_supported
    ⟨fun _ => Except.ok "fr", fun _ => Except.ok "Bonjour!", true, true, true⟩
    [] 0 "salut" "u" "demo" (fun e he => absurd he (List.not_mem_nil e))).1
